import Mathlib

/-!
Verification of the aioodbc connection-pool specification.

This file gives a shallow embedding of the pool/connection/cursor state
machine of aioodbc (src/aioodbc/pool.py, connection.py, cursor.py,
utils.py) as pure Lean functions, and proves the specification claims
about it.

Modelling conventions:
* The asyncio event loop is single threaded and `Pool._acquire` holds the
  shared condition lock across the whole `_fill_free_pool` call, so every
  pool operation is embedded as one atomic transition on a `Pool` state.
* Calls into the pyodbc driver are parameterized by their outcome
  (an `Except PyException` value, or a `closeErr` field for what a
  connection's `close()` call would raise), since the driver is external.
* `collections.deque(maxlen=m)` is modelled by `dequeAppend`, which drops
  from the left when the deque is full, like the Python type.
* Machine-level details (threads, timings) are abstracted: the monotonic
  clock value at the time of a call is passed in as `now : Int`.
* The `_acquiring` counter is incremented and decremented around each
  awaited connect inside the (lock-holding) fill step, so it is zero in
  every at-rest state; the state keeps the counter so that `Pool.size`
  can be embedded exactly as in the source.
-/

namespace Aioodbc

/-- Python exception classes relevant to the embedded code: pyodbc's
`ProgrammingError` and `OperationalError` (both subclasses of
`pyodbc.Error`), any other `pyodbc.Error`, and exceptions that are not
pyodbc errors at all. -/
inductive PyExcClass where
  | programmingError
  | operationalError
  | otherPyodbcError
  | nonPyodbc
deriving DecidableEq, Repr

/-- A Python exception value: its class and its `args` tuple (each
argument taken through `str`). -/
structure PyException where
  cls : PyExcClass
  args : List String
deriving DecidableEq, Repr

/-- `isinstance(e, pyodbc.Error)`. -/
def PyException.isPyodbcError (e : PyException) : Bool :=
  e.cls ≠ PyExcClass.nonPyodbc

/-- Errors raised by the embedded aioodbc code itself: `assert` failures,
`RuntimeError` (the pool-closing and illegal-state errors), `ValueError`
(bad pool construction parameters), and re-raised driver exceptions. -/
inductive PyErr where
  | assertionError
  | runtimeError (msg : String)
  | valueError (msg : String)
  | driver (e : PyException)
deriving DecidableEq, Repr

/-- Embeds `_CONN_CLOSE_ERRORS` of src/aioodbc/utils.py lines 21-26:
the fixed SQLSTATE table of connection-terminating driver errors;
`none` means any message counts, `some p` means the message must start
with `p`. -/
def CONN_CLOSE_ERRORS : List (String × Option String) :=
  [("08S01", none),
   ("HY000", some ("[HY000] server closed the connection unexpectedly"))]

/-- Embeds `_is_conn_close_error` of src/aioodbc/utils.py lines 29-41:
`False` unless `e` is a pyodbc `Error` with at least two args whose first
arg is a key of the table; then `True` if the table entry is falsy
(`None` or the empty string), else whether `str(e.args[1])` starts with
the entry. -/
def is_conn_close_error (e : PyException) : Bool :=
  if !e.isPyodbcError || e.args.length < 2 then false
  else
    match e.args with
    | sqlstate :: msg :: _ =>
      match CONN_CLOSE_ERRORS.lookup sqlstate with
      | none => false
      | some checkMsg =>
        match checkMsg with
        | none => true
        | some cm => if cm = "" then true else msg.startsWith cm
    | _ => false

/-- A `Connection` object (src/aioodbc/connection.py).  `hasHandle`
models whether `self._conn` is non-`None`; `last_usage` is the
`_last_usage` monotonic-clock stamp; `closeErr` is the exception the
underlying `self._conn.close()` driver call would raise (`none` when the
driver close succeeds), and `id` distinguishes distinct objects. -/
structure Connection where
  id : Nat
  hasHandle : Bool
  last_usage : Int
  closeErr : Option PyException
deriving DecidableEq, Repr

/-- Embeds the `Connection.closed` property (connection.py lines 104-108):
`False` when `self._conn` is set, else `True`. -/
def Connection.closed (c : Connection) : Bool :=
  !c.hasHandle

/-- Result of `Connection.close()`: the connection afterwards, the raised
exception if any, and whether the driver `close` was actually called. -/
structure CloseResult where
  conn : Connection
  raised : Option PyException
  driverCalled : Bool
deriving DecidableEq, Repr

/-- Embeds `Connection.close` (connection.py lines 149-155): no-op when
the handle is already gone; otherwise calls the driver close and clears
the handle on success (on a driver exception the handle is left set,
since the assignment is never reached). -/
def Connection.close (c : Connection) : CloseResult :=
  if c.hasHandle = false then ⟨c, none, false⟩
  else
    match c.closeErr with
    | some e => ⟨c, some e, true⟩
    | none => ⟨{ c with hasHandle := false }, none, true⟩

/-- Embeds `Connection.execute` (connection.py lines 169-189) with the
driver outcome of `self._conn.execute` passed in: on a pyodbc error that
`_is_conn_close_error` classifies as connection-terminating the
connection closes itself before re-raising; every other exception is
re-raised with the connection untouched. -/
def Connection.execute (c : Connection) (driverRes : Except PyException Unit) :
    Connection × Except PyErr Unit :=
  if c.hasHandle = false then (c, Except.error PyErr.assertionError)
  else
    match driverRes with
    | Except.ok _ => (c, Except.ok ())
    | Except.error e =>
      if e.isPyodbcError then
        if is_conn_close_error e then
          let cr := Connection.close c
          match cr.raised with
          | some e2 => (cr.conn, Except.error (PyErr.driver e2))
          | none => (cr.conn, Except.error (PyErr.driver e))
        else (c, Except.error (PyErr.driver e))
      else (c, Except.error (PyErr.driver e))

/-- A `Cursor` object (src/aioodbc/cursor.py): only the owning-connection
reference matters for the lifecycle claims; `none` models a closed
cursor (`self._conn is None`). -/
structure Cursor where
  conn : Option Connection
deriving DecidableEq, Repr

instance exceptDecEq {ε : Type u} {α : Type v} [DecidableEq ε] [DecidableEq α] :
    DecidableEq (Except ε α) := fun a b =>
  match a, b with
  | Except.ok x, Except.ok y =>
    if h : x = y then isTrue (by rw [h]) else isFalse (by intro hh; cases hh; exact h rfl)
  | Except.ok _, Except.error _ => isFalse (by intro hh; cases hh)
  | Except.error _, Except.ok _ => isFalse (by intro hh; cases hh)
  | Except.error x, Except.error y =>
    if h : x = y then isTrue (by rw [h]) else isFalse (by intro hh; cases hh; exact h rfl)

/-- Outcome of a cursor operation: the cursor afterwards, its result, and
whether the backing driver was called. -/
structure OpOutcome where
  cur : Cursor
  result : Except PyErr Unit
  driverCalled : Bool
deriving DecidableEq, Repr

/-- Embeds `Cursor._run_operation` (cursor.py lines 37-53) with the
driver outcome passed in: raises `pyodbc.OperationalError("Cursor is
closed.")` without touching the driver when the owning-connection
reference is `None`; otherwise forwards to the driver, and on a pyodbc
error classified as connection-terminating closes the owning connection
before re-raising. -/
def Cursor.run_operation (cur : Cursor) (driverRes : Except PyException Unit) : OpOutcome :=
  match cur.conn with
  | none =>
    ⟨cur, Except.error (PyErr.driver ⟨PyExcClass.operationalError, ["Cursor is closed."]⟩), false⟩
  | some c =>
    match driverRes with
    | Except.ok _ => ⟨cur, Except.ok (), true⟩
    | Except.error e =>
      if e.isPyodbcError then
        if is_conn_close_error e then
          let cr := Connection.close c
          match cr.raised with
          | some e2 => ⟨⟨some cr.conn⟩, Except.error (PyErr.driver e2), true⟩
          | none => ⟨⟨some cr.conn⟩, Except.error (PyErr.driver e), true⟩
        else ⟨cur, Except.error (PyErr.driver e), true⟩
      else ⟨cur, Except.error (PyErr.driver e), true⟩

/-- Embeds `Cursor.execute` (cursor.py lines 138-153): forwards through
`_run_operation` (the echo logging has no state effect). -/
def Cursor.execute (cur : Cursor) (driverRes : Except PyException Unit) : OpOutcome :=
  Cursor.run_operation cur driverRes

/-- Embeds `Cursor.executemany` (cursor.py lines 155-163). -/
def Cursor.executemany (cur : Cursor) (driverRes : Except PyException Unit) : OpOutcome :=
  Cursor.run_operation cur driverRes

/-- Embeds `Cursor.fetchone` (cursor.py lines 176-184). -/
def Cursor.fetchone (cur : Cursor) (driverRes : Except PyException Unit) : OpOutcome :=
  Cursor.run_operation cur driverRes

/-- Embeds `Cursor.fetchall` (cursor.py lines 186-198). -/
def Cursor.fetchall (cur : Cursor) (driverRes : Except PyException Unit) : OpOutcome :=
  Cursor.run_operation cur driverRes

/-- Embeds `Cursor.fetchmany` (cursor.py lines 200-217); the `size`
defaulting only reads the driver-side `arraysize` attribute. -/
def Cursor.fetchmany (cur : Cursor) (driverRes : Except PyException Unit) : OpOutcome :=
  Cursor.run_operation cur driverRes

/-- Embeds `Cursor.nextset` (cursor.py lines 219-231). -/
def Cursor.nextset (cur : Cursor) (driverRes : Except PyException Unit) : OpOutcome :=
  Cursor.run_operation cur driverRes

/-- Embeds `Cursor.tables` (cursor.py lines 233-255). -/
def Cursor.tables (cur : Cursor) (driverRes : Except PyException Unit) : OpOutcome :=
  Cursor.run_operation cur driverRes

/-- Embeds `Cursor.columns` (cursor.py lines 257-280). -/
def Cursor.columns (cur : Cursor) (driverRes : Except PyException Unit) : OpOutcome :=
  Cursor.run_operation cur driverRes

/-- Embeds `Cursor.statistics` (cursor.py lines 282-309). -/
def Cursor.statistics (cur : Cursor) (driverRes : Except PyException Unit) : OpOutcome :=
  Cursor.run_operation cur driverRes

/-- Embeds `Cursor.primaryKeys` (cursor.py lines 350-361). -/
def Cursor.primaryKeys (cur : Cursor) (driverRes : Except PyException Unit) : OpOutcome :=
  Cursor.run_operation cur driverRes

/-- Embeds `Cursor.foreignKeys` (cursor.py lines 363-387). -/
def Cursor.foreignKeys (cur : Cursor) (driverRes : Except PyException Unit) : OpOutcome :=
  Cursor.run_operation cur driverRes

/-- Embeds `Cursor.getTypeInfo` (cursor.py lines 389-398). -/
def Cursor.getTypeInfo (cur : Cursor) (driverRes : Except PyException Unit) : OpOutcome :=
  Cursor.run_operation cur driverRes

/-- Embeds `Cursor.procedures` (cursor.py lines 400-415). -/
def Cursor.procedures (cur : Cursor) (driverRes : Except PyException Unit) : OpOutcome :=
  Cursor.run_operation cur driverRes

/-- Embeds `Cursor.skip` (cursor.py lines 431-433). -/
def Cursor.skip (cur : Cursor) (driverRes : Except PyException Unit) : OpOutcome :=
  Cursor.run_operation cur driverRes

/-- Embeds `Cursor.commit` (cursor.py lines 435-437). -/
def Cursor.commit (cur : Cursor) (driverRes : Except PyException Unit) : OpOutcome :=
  Cursor.run_operation cur driverRes

/-- Embeds `Cursor.rollback` (cursor.py lines 439-441). -/
def Cursor.rollback (cur : Cursor) (driverRes : Except PyException Unit) : OpOutcome :=
  Cursor.run_operation cur driverRes

/-- Embeds `Cursor.close` (cursor.py lines 126-136): returns immediately
when already closed, otherwise runs the driver close through
`_run_operation` and clears the owning-connection reference on success. -/
def Cursor.close (cur : Cursor) (driverRes : Except PyException Unit) : OpOutcome :=
  match cur.conn with
  | none => ⟨cur, Except.ok (), false⟩
  | some _ =>
    let r := Cursor.run_operation cur driverRes
    match r.result with
    | Except.ok _ => ⟨⟨none⟩, Except.ok (), r.driverCalled⟩
    | Except.error e => ⟨r.cur, Except.error e, r.driverCalled⟩

/-- Append to a `collections.deque(maxlen=maxlen)`: when the deque is
full, appending on the right silently discards from the left. -/
def dequeAppend (maxlen : Nat) (l : List Connection) (c : Connection) : List Connection :=
  if maxlen ≤ l.length then (l ++ [c]).drop (l.length + 1 - maxlen) else l ++ [c]

/-- A `Pool` object (src/aioodbc/pool.py lines 24-55).  `free` models the
`_free` deque (head = left end), `used` the `_used` set, `acquiring` the
`_acquiring` counter, and `nextId` is the supply of fresh connection
identities for the connections `connect` creates. -/
structure Pool where
  minsize : Nat
  maxsize : Nat
  recycle : Int
  free : List Connection
  used : Finset Connection
  acquiring : Nat
  closing : Bool
  closed : Bool
  nextId : Nat
deriving DecidableEq

/-- Embeds the `Pool.freesize` property (pool.py lines 73-75). -/
def Pool.freesize (s : Pool) : Nat :=
  s.free.length

/-- Embeds the `Pool.size` property (pool.py lines 69-71):
`freesize + len(used) + acquiring`. -/
def Pool.size (s : Pool) : Nat :=
  s.freesize + s.used.card + s.acquiring

/-- Embeds `Pool.__init__` parameter validation (pool.py lines 34-37)
and the initial state (lines 43-55); `dsn`/`echo` and the event loop do
no state-machine work and are omitted. -/
def Pool.init (minsize maxsize pool_recycle : Int) : Except PyErr Pool :=
  if minsize < 0 then Except.error (PyErr.valueError ("minsize should be zero or greater"))
  else if maxsize < minsize then
    Except.error (PyErr.valueError ("maxsize should be not less than minsize"))
  else Except.ok
    { minsize := minsize.toNat
      maxsize := maxsize.toNat
      recycle := pool_recycle
      free := []
      used := ∅
      acquiring := 0
      closing := false
      closed := false
      nextId := 0 }

/-- Embeds `Pool.close` (pool.py lines 89-97): returns immediately when
already closed, else sets the closing flag. -/
def Pool.close (s : Pool) : Pool :=
  if s.closed then s else { s with closing := true }

/-- The recycle condition of `_fill_free_pool` (pool.py lines 143-146):
`self._recycle > -1 and self._loop.time() - conn.last_usage > self._recycle`. -/
def isStale (now recycle : Int) (c : Connection) : Bool :=
  decide (recycle > -1) && decide (now - c.last_usage > recycle)

/-- The net effect of the sweep's close attempt on the connection object
it evicts: untouched when already closed, else `Connection.close` (which
leaves the handle set when the driver close raises). -/
def closeFx (c : Connection) : Connection :=
  if Connection.closed c then c else (Connection.close c).conn

/-- Embeds the recycling sweep of `Pool._fill_free_pool` (pool.py lines
140-160).  Each of the `len(self._free)` iterations looks at the
rightmost connection: a stale one is closed (a `ProgrammingError` from
the close is logged and swallowed, any other exception propagates before
the `pop` runs) and popped; a fresh one is rotated to the left end.
Returns the free deque, the evicted (post-close) connection objects, and
the propagated exception if any. -/
def recycleSweep (now recycle : Int) :
    Nat → List Connection → List Connection × List Connection × Option PyException
  | 0, free => (free, [], none)
  | fuel + 1, free =>
    match free.getLast? with
    | none => (free, [], none)
    | some conn =>
      if isStale now recycle conn then
        let cr := if Connection.closed conn then CloseResult.mk conn none false
                  else Connection.close conn
        match cr.raised with
        | some e =>
          if e.cls = PyExcClass.programmingError then
            let r := recycleSweep now recycle fuel free.dropLast
            (r.1, cr.conn :: r.2.1, r.2.2)
          else (free, [], some e)
        | none =>
          let r := recycleSweep now recycle fuel free.dropLast
          (r.1, cr.conn :: r.2.1, r.2.2)
      else recycleSweep now recycle fuel (conn :: free.dropLast)

/-- The connection object `connect` (connection.py) hands back to the
pool: open, fresh identity, last-usage stamped now, driver close assumed
healthy. -/
def mkConn (id : Nat) (now : Int) : Connection :=
  ⟨id, true, now, none⟩

/-- One creation step of `_fill_free_pool` (pool.py lines 163-174 and
179-190): connect, append the new connection to the free deque and
notify; the `_acquiring` increment/decrement around the awaited connect
cancels out in the at-rest state. -/
def appendFresh (now : Int) (s : Pool) : Pool :=
  { s with free := dequeAppend s.maxsize s.free (mkConn s.nextId now)
           nextId := s.nextId + 1 }

/-- The `while self.size < self.minsize` creation loop of
`_fill_free_pool` (pool.py lines 162-174), fuelled: at most `minsize`
iterations can run, since each one grows `size`. -/
def fillMin (now : Int) : Nat → Pool → Pool
  | 0, s => s
  | fuel + 1, s =>
    if s.size < s.minsize then fillMin now fuel (appendFresh now s) else s

/-- Embeds `Pool._fill_free_pool` (pool.py lines 139-190): the recycle
sweep, then creation up to `minsize`, then — only when the free deque is
still empty — the single `override_min` creation guarded by
`size < maxsize`.  Returns the new state and the propagated exception if
the sweep raised. -/
def Pool.fill_free_pool (now : Int) (s : Pool) (override_min : Bool) : Pool × Option PyErr :=
  let sw := recycleSweep now s.recycle s.free.length s.free
  let s1 := { s with free := sw.1 }
  match sw.2.2 with
  | some e => (s1, some (PyErr.driver e))
  | none =>
    let s2 := fillMin now s1.minsize s1
    match s2.free with
    | _ :: _ => (s2, none)
    | [] =>
      if override_min && decide (s2.size < s2.maxsize) then (appendFresh now s2, none)
      else (s2, none)

/-- Outcome of one pass of the `Pool._acquire` wait loop. -/
inductive AcquireOutcome where
  | ok (conn : Connection) (s : Pool)
  | wouldBlock (s : Pool)
  | failed (e : PyErr) (s : Pool)
deriving DecidableEq

/-- The pool state carried by an `AcquireOutcome`. -/
def AcquireOutcome.state : AcquireOutcome → Pool
  | AcquireOutcome.ok _ s => s
  | AcquireOutcome.wouldBlock s => s
  | AcquireOutcome.failed _ s => s

/-- Embeds one pass of `Pool._acquire` (pool.py lines 124-137): fail
immediately when the pool is closing; otherwise fill the free pool with
`override_min=True`; pop the leftmost free connection (asserting it open
and not in the used set) and move it to `used`, or report that the loop
would block on the condition when the free deque stayed empty. -/
def Pool.acquireStep (now : Int) (s : Pool) : AcquireOutcome :=
  if s.closing then
    AcquireOutcome.failed (PyErr.runtimeError ("Cannot acquire connection after closing pool")) s
  else
    let fr := Pool.fill_free_pool now s true
    match fr.2 with
    | some e => AcquireOutcome.failed e fr.1
    | none =>
      match fr.1.free with
      | [] => AcquireOutcome.wouldBlock fr.1
      | conn :: rest =>
        if Connection.closed conn then
          AcquireOutcome.failed PyErr.assertionError { fr.1 with free := rest }
        else if conn ∈ fr.1.used then
          AcquireOutcome.failed PyErr.assertionError { fr.1 with free := rest }
        else AcquireOutcome.ok conn { fr.1 with free := rest, used := insert conn fr.1.used }

/-- Embeds `Pool.release` (pool.py lines 196-205): asserts the
connection is in the used set and removes it; an already-closed
connection is dropped; otherwise it is closed immediately when the pool
is closing (a driver exception from that close propagates), else
appended to the free deque. -/
def Pool.release (s : Pool) (conn : Connection) : Pool × Option PyErr :=
  if conn ∈ s.used then
    let s1 := { s with used := s.used.erase conn }
    if Connection.closed conn then (s1, none)
    else
      if s1.closing then
        let cr := Connection.close conn
        match cr.raised with
        | some e => (s1, some (PyErr.driver e))
        | none => (s1, none)
      else ({ s1 with free := dequeAppend s1.maxsize s1.free conn }, none)
  else (s, some PyErr.assertionError)

/-- The `while self._free: conn = self._free.popleft(); await
conn.close()` loop shared by `Pool.clear` (pool.py lines 81-87) and
`Pool.wait_closed` (lines 109-111), fuelled by the free-deque length.
Returns the state, the closed connection objects, and the propagated
exception if a close raised (the connection was already popped then). -/
def drainFree : Nat → Pool → Pool × List Connection × Option PyErr
  | 0, s => (s, [], none)
  | fuel + 1, s =>
    match s.free with
    | [] => (s, [], none)
    | conn :: rest =>
      let cr := Connection.close conn
      match cr.raised with
      | some e => ({ s with free := rest }, [], some (PyErr.driver e))
      | none =>
        let r := drainFree fuel { s with free := rest }
        (r.1, cr.conn :: r.2.1, r.2.2)

/-- Embeds `Pool.clear` (pool.py lines 81-87): close and pop every free
connection (the notify has no state effect). -/
def Pool.clear (s : Pool) : Pool × List Connection × Option PyErr :=
  drainFree s.free.length s

/-- Outcome of `Pool.wait_closed`: returned, still blocked on the
condition variable, or raised. -/
inductive WaitClosedOutcome where
  | returned (s : Pool)
  | blocked (s : Pool)
  | raised (e : PyErr) (s : Pool)
deriving DecidableEq

/-- The pool state carried by a `WaitClosedOutcome`. -/
def WaitClosedOutcome.state : WaitClosedOutcome → Pool
  | WaitClosedOutcome.returned s => s
  | WaitClosedOutcome.blocked s => s
  | WaitClosedOutcome.raised _ s => s

/-- Embeds `Pool.wait_closed` (pool.py lines 99-117): returns at once
when already closed; raises `RuntimeError` when `close()` was not called
first; otherwise closes every free connection, then waits on the
condition until `size == freesize` and marks the pool closed. -/
def Pool.wait_closed (s : Pool) : WaitClosedOutcome :=
  if s.closed then WaitClosedOutcome.returned s
  else if s.closing = false then
    WaitClosedOutcome.raised
      (PyErr.runtimeError (".wait_closed() should be called after .close()")) s
  else
    let d := drainFree s.free.length s
    match d.2.2 with
    | some e => WaitClosedOutcome.raised e d.1
    | none =>
      if d.1.freesize < d.1.size then WaitClosedOutcome.blocked d.1
      else WaitClosedOutcome.returned { d.1 with closed := true }

/-- Well-formedness of an at-rest pool state: `minsize ≤ maxsize` (the
constructor enforces it), no creation in flight, and the §8 bound
`size ≤ maxsize`. -/
def Pool.wf (s : Pool) : Prop :=
  s.minsize ≤ s.maxsize ∧ s.acquiring = 0 ∧ s.size ≤ s.maxsize

instance (s : Pool) : Decidable s.wf :=
  inferInstanceAs (Decidable (s.minsize ≤ s.maxsize ∧ s.acquiring = 0 ∧ s.size ≤ s.maxsize))

/-- The close attempt the recycle sweep makes on a stale connection is
either skipped (no handle), succeeds, or raises something the
`except ProgrammingError` clause catches. -/
def closeSwallowed (c : Connection) : Bool :=
  match c.closeErr with
  | none => true
  | some e => decide (e.cls = PyExcClass.programmingError)

/-- Every stale open connection of `l` closes without an exception that
would escape the sweep's `except ProgrammingError` clause. -/
def sweepSafe (now recycle : Int) (l : List Connection) : Prop :=
  ∀ c ∈ l, isStale now recycle c = true → c.hasHandle = true → closeSwallowed c = true

instance (now recycle : Int) (l : List Connection) : Decidable (sweepSafe now recycle l) :=
  inferInstanceAs (Decidable
    (∀ c ∈ l, isStale now recycle c = true → c.hasHandle = true → closeSwallowed c = true))

/-! ## Helper lemmas -/

theorem dequeAppend_length (m : Nat) (l : List Connection) (c : Connection) :
    (dequeAppend m l c).length = min m (l.length + 1) := by
  unfold dequeAppend
  split
  · simp only [List.length_drop, List.length_append, List.length_singleton]
    omega
  · simp only [List.length_append, List.length_singleton]
    omega

theorem dequeAppend_of_lt {m : Nat} {l : List Connection} (c : Connection)
    (h : l.length < m) : dequeAppend m l c = l ++ [c] := by
  unfold dequeAppend
  split
  · omega
  · rfl

theorem recycleSweep_free_length_le (now recycle : Int) :
    ∀ fuel free, ((recycleSweep now recycle fuel free).1).length ≤ free.length := by
  intro fuel
  induction fuel with
  | zero => intro free; simp [recycleSweep]
  | succ n ih =>
    intro free
    cases hl : free.getLast? with
    | none => simp [recycleSweep, hl]
    | some conn =>
      have hne : free ≠ [] := by
        intro h; rw [h] at hl; exact Option.noConfusion hl
      have hlen : 1 ≤ free.length := List.length_pos.mpr hne
      have hdrop : free.dropLast.length = free.length - 1 := List.length_dropLast free
      by_cases hs : isStale now recycle conn = true
      · cases hr : (if Connection.closed conn then CloseResult.mk conn none false
                    else Connection.close conn).raised with
        | none =>
          have h1 := ih free.dropLast
          simp only [recycleSweep, hl, hs, if_true, hr]
          omega
        | some e =>
          by_cases hc : e.cls = PyExcClass.programmingError
          · have h1 := ih free.dropLast
            simp only [recycleSweep, hl, hs, if_true, hr, hc, if_pos]
            omega
          · simp only [recycleSweep, hl, hs, if_true, hr, if_neg hc]
            exact le_refl _
      · have h1 := ih (conn :: free.dropLast)
        have hlen2 : (conn :: free.dropLast).length = free.length := by
          simp only [List.length_cons, hdrop]; omega
        simp only [recycleSweep, hl, hs, Bool.false_eq_true, if_false]
        omega

theorem sweepSafe_of_append {now recycle : Int} {r : List Connection} {x : Connection}
    (h : sweepSafe now recycle (r ++ [x])) : sweepSafe now recycle r := by
  intro c hc
  exact h c (by simp [hc])

theorem sweepSafe_last {now recycle : Int} {r : List Connection} {x : Connection}
    (h : sweepSafe now recycle (r ++ [x])) :
    isStale now recycle x = true → x.hasHandle = true → closeSwallowed x = true :=
  h x (by simp)

/-- The sweep's close attempt returns the `closeFx` image of the stale
connection, and raises nothing the sweep would propagate, whenever the
connection is sweep-safe. -/
theorem sweep_close_attempt (c : Connection)
    (hsafe : c.hasHandle = true → closeSwallowed c = true) :
    (if Connection.closed c then CloseResult.mk c none false else Connection.close c).conn
        = closeFx c ∧
    ∀ e, (if Connection.closed c then CloseResult.mk c none false
          else Connection.close c).raised = some e →
      e.cls = PyExcClass.programmingError := by
  by_cases hh : c.hasHandle = true
  · have hcl : Connection.closed c = false := by simp [Connection.closed, hh]
    simp only [hcl, if_false, Bool.false_eq_true]
    constructor
    · simp [closeFx, Connection.closed, hcl, hh]
    · intro e he
      have hsw := hsafe hh
      unfold Connection.close at he
      simp only [hh] at he
      cases hce : c.closeErr with
      | none => rw [hce] at he; simp at he
      | some e0 =>
        rw [hce] at he
        simp at he
        unfold closeSwallowed at hsw
        rw [hce] at hsw
        simp at hsw
        rw [← he]
        exact hsw
  · have hcl : Connection.closed c = true := by
      simp [Connection.closed]
      cases hhh : c.hasHandle
      · rfl
      · exact absurd hhh hh
    simp only [hcl, if_true]
    constructor
    · simp [closeFx, hcl]
    · intro e he
      simp at he

/-- Core characterisation of the recycle sweep: with fuel for `rest` and
the already-rotated prefix `kept` in front, the sweep keeps exactly the
non-stale connections of `rest` (in order, rotated in front of `kept`),
evicts the stale ones after closing them, and propagates nothing, as
long as every stale connection of `rest` is sweep-safe. -/
theorem recycleSweep_eq (now recycle : Int) :
    ∀ rest kept : List Connection, sweepSafe now recycle rest →
      recycleSweep now recycle rest.length (kept ++ rest) =
        (rest.filter (fun c => !isStale now recycle c) ++ kept,
         (rest.filter (fun c => isStale now recycle c)).reverse.map closeFx,
         none) := by
  intro rest
  induction rest using List.reverseRecOn with
  | nil =>
    intro kept _
    simp [recycleSweep]
  | append_singleton r x ih =>
    intro kept hsafe
    have hassoc : kept ++ (r ++ [x]) = (kept ++ r) ++ [x] := by
      rw [List.append_assoc]
    have hlast : ((kept ++ r) ++ [x]).getLast? = some x := List.getLast?_concat _
    have hdrop : ((kept ++ r) ++ [x]).dropLast = kept ++ r := List.dropLast_concat
    have hlen : (r ++ [x]).length = r.length + 1 := by simp
    rw [hlen, hassoc]
    by_cases hs : isStale now recycle x = true
    · obtain ⟨hconn, hraise⟩ := sweep_close_attempt x (sweepSafe_last hsafe hs)
      cases hr : (if Connection.closed x then CloseResult.mk x none false
                  else Connection.close x).raised with
      | none =>
        simp only [recycleSweep, hlast, hs, if_true, hr, hdrop]
        rw [ih kept (sweepSafe_of_append hsafe), hconn]
        simp [List.filter_append, hs, List.reverse_append]
      | some e =>
        have hcls := hraise e hr
        simp only [recycleSweep, hlast, hs, if_true, hr, hdrop, if_pos hcls]
        rw [ih kept (sweepSafe_of_append hsafe), hconn]
        simp [List.filter_append, hs, List.reverse_append]
    · have hs2 : isStale now recycle x = false := by
        cases h : isStale now recycle x
        · rfl
        · exact absurd h hs
      simp only [recycleSweep, hlast, hs2, Bool.false_eq_true, if_false, hdrop]
      have hx : x :: (kept ++ r) = (x :: kept) ++ r := by simp
      rw [hx, ih (x :: kept) (sweepSafe_of_append hsafe)]
      simp [List.filter_append, hs2]

theorem appendFresh_fields (now : Int) (s : Pool) :
    (appendFresh now s).minsize = s.minsize ∧ (appendFresh now s).maxsize = s.maxsize ∧
    (appendFresh now s).recycle = s.recycle ∧ (appendFresh now s).used = s.used ∧
    (appendFresh now s).acquiring = s.acquiring ∧ (appendFresh now s).closing = s.closing ∧
    (appendFresh now s).closed = s.closed := by
  simp [appendFresh]

theorem appendFresh_size_le (now : Int) (s : Pool) :
    (appendFresh now s).size ≤ s.size + 1 := by
  have h := dequeAppend_length s.maxsize s.free (mkConn s.nextId now)
  simp only [Pool.size, Pool.freesize, appendFresh]
  simp only [appendFresh] at h
  omega

theorem fillMin_fields (now : Int) :
    ∀ fuel s, ((fillMin now fuel s).minsize = s.minsize ∧
      (fillMin now fuel s).maxsize = s.maxsize ∧
      (fillMin now fuel s).recycle = s.recycle ∧
      (fillMin now fuel s).used = s.used ∧
      (fillMin now fuel s).acquiring = s.acquiring ∧
      (fillMin now fuel s).closing = s.closing ∧
      (fillMin now fuel s).closed = s.closed) := by
  intro fuel
  induction fuel with
  | zero => intro s; simp [fillMin]
  | succ n ih =>
    intro s
    by_cases h : s.size < s.minsize
    · simp only [fillMin, h, if_true]
      obtain ⟨a1, a2, a3, a4, a5, a6, a7⟩ := ih (appendFresh now s)
      obtain ⟨b1, b2, b3, b4, b5, b6, b7⟩ := appendFresh_fields now s
      exact ⟨a1.trans b1, a2.trans b2, a3.trans b3, a4.trans b4, a5.trans b5,
        a6.trans b6, a7.trans b7⟩
    · simp [fillMin, h]

theorem fillMin_size_le (now : Int) :
    ∀ fuel s, s.minsize ≤ s.maxsize → s.size ≤ s.maxsize →
      (fillMin now fuel s).size ≤ s.maxsize := by
  intro fuel
  induction fuel with
  | zero => intro s _ h2; simpa [fillMin] using h2
  | succ n ih =>
    intro s h1 h2
    by_cases h : s.size < s.minsize
    · simp only [fillMin, h, if_true]
      have hf := appendFresh_fields now s
      have hsz := appendFresh_size_le now s
      have := ih (appendFresh now s) (by omega) (by omega)
      omega
    · simpa [fillMin, h] using h2

theorem fill_free_pool_fields (now : Int) (s : Pool) (b : Bool) :
    ((Pool.fill_free_pool now s b).1.minsize = s.minsize ∧
     (Pool.fill_free_pool now s b).1.maxsize = s.maxsize ∧
     (Pool.fill_free_pool now s b).1.recycle = s.recycle ∧
     (Pool.fill_free_pool now s b).1.used = s.used ∧
     (Pool.fill_free_pool now s b).1.acquiring = s.acquiring ∧
     (Pool.fill_free_pool now s b).1.closing = s.closing ∧
     (Pool.fill_free_pool now s b).1.closed = s.closed) := by
  unfold Pool.fill_free_pool
  cases hsw : (recycleSweep now s.recycle s.free.length s.free).2.2 with
  | some e => simp [hsw]
  | none =>
    simp only [hsw]
    have hmin := fillMin_fields now
      ({ s with free := (recycleSweep now s.recycle s.free.length s.free).1 }).minsize
      { s with free := (recycleSweep now s.recycle s.free.length s.free).1 }
    cases hfree : (fillMin now
        ({ s with free := (recycleSweep now s.recycle s.free.length s.free).1 }).minsize
        { s with free := (recycleSweep now s.recycle s.free.length s.free).1 }).free with
    | cons a t =>
      simp only [hfree]
      simp_all
    | nil =>
      simp only [hfree]
      by_cases hov : (b && decide ((fillMin now
          ({ s with free := (recycleSweep now s.recycle s.free.length s.free).1 }).minsize
          { s with free := (recycleSweep now s.recycle s.free.length s.free).1 }).size <
          (fillMin now
          ({ s with free := (recycleSweep now s.recycle s.free.length s.free).1 }).minsize
          { s with free := (recycleSweep now s.recycle s.free.length s.free).1 }).maxsize)) = true
      · simp only [hov, if_true]
        have happ := appendFresh_fields now (fillMin now
          ({ s with free := (recycleSweep now s.recycle s.free.length s.free).1 }).minsize
          { s with free := (recycleSweep now s.recycle s.free.length s.free).1 })
        simp_all
      · simp only [hov, Bool.false_eq_true, if_false]
        simp_all

theorem fill_free_pool_wf (now : Int) (s : Pool) (b : Bool) (h : s.wf) :
    (Pool.fill_free_pool now s b).1.wf := by
  obtain ⟨h1, h2, h3⟩ := h
  have hfields := fill_free_pool_fields now s b
  have hswlen := recycleSweep_free_length_le now s.recycle s.free.length s.free
  unfold Pool.fill_free_pool
  set s1 : Pool := { s with free := (recycleSweep now s.recycle s.free.length s.free).1 } with hs1
  have hs1wf : s1.wf := by
    refine ⟨h1, h2, ?_⟩
    simp only [Pool.size, Pool.freesize, hs1] at h3 ⊢
    omega
  cases hsw : (recycleSweep now s.recycle s.free.length s.free).2.2 with
  | some e => simpa [hsw] using hs1wf
  | none =>
    simp only [hsw]
    obtain ⟨g1, g2, g3⟩ := hs1wf
    have hmf := fillMin_fields now s1.minsize s1
    have hms := fillMin_size_le now s1.minsize s1 g1 g3
    set s2 : Pool := fillMin now s1.minsize s1 with hs2
    have hs2wf : s2.wf := ⟨by omega, by omega, by omega⟩
    cases hfree : s2.free with
    | cons a t => simpa [hfree] using hs2wf
    | nil =>
      simp only [hfree]
      by_cases hov : (b && decide (s2.size < s2.maxsize)) = true
      · simp only [hov, if_true]
        have happf := appendFresh_fields now s2
        have happs := appendFresh_size_le now s2
        have hlt : s2.size < s2.maxsize := by
          have hd := hov
          simp only [Bool.and_eq_true, decide_eq_true_eq] at hd
          exact hd.2
        exact ⟨by omega, by omega, by omega⟩
      · simpa [hov] using hs2wf

/-- Replacing a pool's free deque by its own value is the identity. -/
theorem pool_eta {l : List Connection} (s : Pool) (h : s.free = l) :
    ({ s with free := l } : Pool) = s := by
  rw [← h]

/-- `Connection.close` on a connection whose driver close succeeds:
returns the `closeFx` image, raises nothing, and calls the driver
exactly when the handle is still set. -/
theorem close_clean (c : Connection) (h : c.closeErr = none) :
    Connection.close c = ⟨closeFx c, none, c.hasHandle⟩ := by
  cases hh : c.hasHandle with
  | false =>
    have h1 : Connection.close c = ⟨c, none, false⟩ := by
      unfold Connection.close
      simp [hh]
    have h2 : closeFx c = c := by
      unfold closeFx Connection.closed
      simp [hh]
    rw [h1, h2, ← hh]
  | true =>
    have h1 : Connection.close c = ⟨{ c with hasHandle := false }, none, true⟩ := by
      unfold Connection.close
      simp [hh, h]
    have h2 : closeFx c = { c with hasHandle := false } := by
      unfold closeFx Connection.closed
      simp only [hh, Bool.not_true, Bool.false_eq_true, if_false]
      rw [h1]
    rw [h1, h2, ← hh]

theorem drainFree_clean :
    ∀ (l : List Connection) (s : Pool), s.free = l → (∀ c ∈ l, c.closeErr = none) →
      drainFree l.length s = ({ s with free := ([] : List Connection) }, l.map closeFx, none) := by
  intro l
  induction l with
  | nil =>
    intro s hf _
    rw [List.length_nil, pool_eta s hf]
    rfl
  | cons c t ih =>
    intro s hf hc
    have hcc : c.closeErr = none := hc c (by simp)
    have hclose := close_clean c hcc
    simp only [List.length_cons, drainFree, hf, hclose]
    rw [ih { s with free := t } rfl (fun d hd => hc d (by simp [hd]))]
    rfl

theorem drainFree_fields :
    ∀ fuel s, ((drainFree fuel s).1.minsize = s.minsize ∧
      (drainFree fuel s).1.maxsize = s.maxsize ∧
      (drainFree fuel s).1.recycle = s.recycle ∧
      (drainFree fuel s).1.used = s.used ∧
      (drainFree fuel s).1.acquiring = s.acquiring ∧
      (drainFree fuel s).1.closing = s.closing ∧
      (drainFree fuel s).1.closed = s.closed ∧
      (drainFree fuel s).1.free.length ≤ s.free.length) := by
  intro fuel
  induction fuel with
  | zero => intro s; simp [drainFree]
  | succ n ih =>
    intro s
    cases hf : s.free with
    | nil => simp [drainFree, hf]
    | cons c t =>
      cases hr : (Connection.close c).raised with
      | some e =>
        have hstep : drainFree (n + 1) s =
            ({ s with free := t }, [], some (PyErr.driver e)) := by
          simp only [drainFree, hf, hr]
        rw [hstep]
        exact ⟨rfl, rfl, rfl, rfl, rfl, rfl, rfl, Nat.le_succ t.length⟩
      | none =>
        obtain ⟨a1, a2, a3, a4, a5, a6, a7, a8⟩ := ih { s with free := t }
        have hstep : drainFree (n + 1) s =
            ((drainFree n { s with free := t }).1,
             (Connection.close c).conn :: (drainFree n { s with free := t }).2.1,
             (drainFree n { s with free := t }).2.2) := by
          simp only [drainFree, hf, hr]
        rw [hstep]
        refine ⟨a1, a2, a3, a4, a5, a6, a7, ?_⟩
        simp only [List.length_cons]
        exact Nat.le_succ_of_le a8

theorem dequeAppend_subset (m : Nat) (l : List Connection) (c : Connection) :
    ∀ x ∈ dequeAppend m l c, x ∈ l ∨ x = c := by
  intro x hx
  unfold dequeAppend at hx
  have hx2 : x ∈ l ++ [c] := by
    split at hx
    · exact List.drop_subset _ _ hx
    · exact hx
  rcases List.mem_append.mp hx2 with h | h
  · exact Or.inl h
  · exact Or.inr (List.mem_singleton.mp h)

theorem fillMin_free_mem (now : Int) :
    ∀ fuel s x, x ∈ (fillMin now fuel s).free → x ∈ s.free ∨ ∃ i, x = mkConn i now := by
  intro fuel
  induction fuel with
  | zero => intro s x hx; left; simpa [fillMin] using hx
  | succ n ih =>
    intro s x hx
    by_cases h : s.size < s.minsize
    · simp only [fillMin, h, if_true] at hx
      rcases ih (appendFresh now s) x hx with h1 | h2
      · rcases dequeAppend_subset s.maxsize s.free (mkConn s.nextId now) x
          (by simpa [appendFresh] using h1) with h3 | h4
        · exact Or.inl h3
        · exact Or.inr ⟨s.nextId, h4⟩
      · exact Or.inr h2
    · left; simpa [fillMin, h] using hx

/-- With a sweep-safe free deque, `_fill_free_pool` raises nothing and
every connection in the resulting free deque is either a non-stale
survivor of the old free deque or freshly created (with `last_usage`
stamped `now`). -/
theorem fill_free_pool_free_mem (now : Int) (s : Pool) (b : Bool)
    (hsafe : sweepSafe now s.recycle s.free) :
    (Pool.fill_free_pool now s b).2 = none ∧
    ∀ x ∈ (Pool.fill_free_pool now s b).1.free,
      (x ∈ s.free ∧ isStale now s.recycle x = false) ∨ ∃ i, x = mkConn i now := by
  have hsw := recycleSweep_eq now s.recycle s.free [] hsafe
  rw [List.nil_append, List.append_nil] at hsw
  have hmem0 : ∀ x ∈ (recycleSweep now s.recycle s.free.length s.free).1,
      x ∈ s.free ∧ isStale now s.recycle x = false := by
    intro x hx
    rw [hsw] at hx
    have := List.mem_filter.mp hx
    exact ⟨this.1, by simpa using this.2⟩
  unfold Pool.fill_free_pool
  rw [hsw]
  simp only []
  set s1 : Pool := { s with
    free := s.free.filter (fun c => !isStale now s.recycle c) } with hs1
  have hmem1 : ∀ x ∈ s1.free, x ∈ s.free ∧ isStale now s.recycle x = false := by
    intro x hx
    have := List.mem_filter.mp hx
    exact ⟨this.1, by simpa using this.2⟩
  set s2 := fillMin now s1.minsize s1 with hs2
  have hmem2 : ∀ x ∈ s2.free,
      (x ∈ s.free ∧ isStale now s.recycle x = false) ∨ ∃ i, x = mkConn i now := by
    intro x hx
    rcases fillMin_free_mem now s1.minsize s1 x hx with h1 | h2
    · exact Or.inl (hmem1 x h1)
    · exact Or.inr h2
  cases hfree : s2.free with
  | cons a t =>
    refine ⟨rfl, ?_⟩
    intro x hx
    have hx2 : x ∈ s2.free := hx
    exact hmem2 x hx2
  | nil =>
    by_cases hov : (b && decide (s2.size < s2.maxsize)) = true
    · constructor
      · show (if (b && decide (s2.size < s2.maxsize)) = true
            then (appendFresh now s2, none) else (s2, none)).2 = (none : Option PyErr)
        rw [if_pos hov]
      · intro x hx
        have hx2 : x ∈ (if (b && decide (s2.size < s2.maxsize)) = true
            then (appendFresh now s2, none) else (s2, none)).1.free := hx
        rw [if_pos hov] at hx2
        simp only [appendFresh] at hx2
        rcases dequeAppend_subset s2.maxsize s2.free (mkConn s2.nextId now) x hx2 with h1 | h2
        · exact hmem2 x h1
        · exact Or.inr ⟨s2.nextId, h2⟩
    · constructor
      · show (if (b && decide (s2.size < s2.maxsize)) = true
            then (appendFresh now s2, none) else (s2, none)).2 = (none : Option PyErr)
        rw [if_neg hov]
      · intro x hx
        have hx2 : x ∈ (if (b && decide (s2.size < s2.maxsize)) = true
            then (appendFresh now s2, none) else (s2, none)).1.free := hx
        rw [if_neg hov] at hx2
        exact hmem2 x hx2

/-- A freshly created connection is never stale at creation time when
recycling is enabled with a non-negative threshold. -/
theorem mkConn_not_stale (now : Int) (recycle : Int) (h : 0 ≤ recycle) (i : Nat) :
    isStale now recycle (mkConn i now) = false := by
  have h2 : ¬(now - (mkConn i now).last_usage > recycle) := by
    simp only [mkConn]
    omega
  unfold isStale
  rw [decide_eq_false h2]
  simp

theorem close_wf (s : Pool) (h : s.wf) : (Pool.close s).wf := by
  unfold Pool.close
  split
  · exact h
  · exact ⟨h.1, h.2.1, h.2.2⟩

theorem clear_wf (s : Pool) (h : s.wf) : (Pool.clear s).1.wf := by
  obtain ⟨h1, h2, h3⟩ := h
  obtain ⟨a1, a2, a3, a4, a5, a6, a7, a8⟩ := drainFree_fields s.free.length s
  have a4c : (drainFree s.free.length s).1.used.card = s.used.card := by rw [a4]
  unfold Pool.clear
  refine ⟨by omega, by omega, ?_⟩
  simp only [Pool.size, Pool.freesize] at h3 ⊢
  omega

theorem acquireStep_wf (now : Int) (s : Pool) (h : s.wf) :
    (Pool.acquireStep now s).state.wf := by
  unfold Pool.acquireStep
  by_cases hcl : s.closing = true
  · simp only [hcl, if_true]
    exact h
  · simp only [hcl, Bool.false_eq_true, if_false]
    have hwf1 := fill_free_pool_wf now s true h
    set fr := Pool.fill_free_pool now s true with hfr
    cases h2 : fr.2 with
    | some e => simpa [AcquireOutcome.state] using hwf1
    | none =>
      simp only []
      cases hfree : fr.1.free with
      | nil => simpa [AcquireOutcome.state] using hwf1
      | cons conn rest =>
        obtain ⟨w1, w2, w3⟩ := hwf1
        by_cases hc1 : Connection.closed conn = true
        · simp only [hc1, if_true, AcquireOutcome.state]
          refine ⟨w1, w2, ?_⟩
          simp only [Pool.size, Pool.freesize] at w3 ⊢
          simp only [hfree, List.length_cons] at w3
          omega
        · simp only [hc1, Bool.false_eq_true, if_false]
          by_cases hc2 : conn ∈ fr.1.used
          · simp only [hc2, if_true, AcquireOutcome.state]
            refine ⟨w1, w2, ?_⟩
            simp only [Pool.size, Pool.freesize] at w3 ⊢
            simp only [hfree, List.length_cons] at w3
            omega
          · simp only [hc2, if_false, AcquireOutcome.state]
            refine ⟨w1, w2, ?_⟩
            have hcard : (insert conn fr.1.used).card = fr.1.used.card + 1 :=
              Finset.card_insert_of_not_mem hc2
            simp only [Pool.size, Pool.freesize] at w3 ⊢
            simp only [hfree, List.length_cons] at w3
            simp only [hcard]
            omega

theorem release_wf (s : Pool) (c : Connection) (h : s.wf) : (Pool.release s c).1.wf := by
  obtain ⟨h1, h2, h3⟩ := h
  unfold Pool.release
  by_cases hm : c ∈ s.used
  · simp only [hm, if_true]
    have hcard : (s.used.erase c).card = s.used.card - 1 := Finset.card_erase_of_mem hm
    have hpos : 1 ≤ s.used.card := Finset.card_pos.mpr ⟨c, hm⟩
    by_cases hc1 : Connection.closed c = true
    · simp only [hc1, if_true]
      refine ⟨h1, h2, ?_⟩
      simp only [Pool.size, Pool.freesize] at h3 ⊢
      omega
    · simp only [hc1, Bool.false_eq_true, if_false]
      by_cases hc2 : s.closing = true
      · simp only [hc2, if_true]
        cases hr : (Connection.close c).raised with
        | some e =>
          refine ⟨h1, h2, ?_⟩
          simp only [Pool.size, Pool.freesize] at h3 ⊢
          omega
        | none =>
          refine ⟨h1, h2, ?_⟩
          simp only [Pool.size, Pool.freesize] at h3 ⊢
          omega
      · simp only [hc2, Bool.false_eq_true, if_false]
        refine ⟨h1, h2, ?_⟩
        have hlen := dequeAppend_length s.maxsize s.free c
        simp only [Pool.size, Pool.freesize] at h3 ⊢
        simp only [hlen, hcard]
        omega
  · simp only [hm, if_false]
    exact ⟨h1, h2, h3⟩

theorem wait_closed_wf (s : Pool) (h : s.wf) : (Pool.wait_closed s).state.wf := by
  obtain ⟨h1, h2, h3⟩ := h
  obtain ⟨a1, a2, a3, a4, a5, a6, a7, a8⟩ := drainFree_fields s.free.length s
  have a4c : (drainFree s.free.length s).1.used.card = s.used.card := by rw [a4]
  cases hcd : s.closed with
  | true =>
    simp only [Pool.wait_closed, hcd, if_true, WaitClosedOutcome.state]
    exact ⟨h1, h2, h3⟩
  | false =>
    cases hcg : s.closing with
    | false =>
      simp only [Pool.wait_closed, hcd, hcg, Bool.false_eq_true, if_false, if_true,
        WaitClosedOutcome.state]
      exact ⟨h1, h2, h3⟩
    | true =>
      cases hr : (drainFree s.free.length s).2.2 with
      | some e =>
        have hw : Pool.wait_closed s =
            WaitClosedOutcome.raised e (drainFree s.free.length s).1 := by
          unfold Pool.wait_closed
          simp [hcd, hcg, hr]
        rw [hw]
        simp only [WaitClosedOutcome.state]
        refine ⟨by omega, by omega, ?_⟩
        simp only [Pool.size, Pool.freesize] at h3 ⊢
        omega
      | none =>
        by_cases hlt : (drainFree s.free.length s).1.freesize < (drainFree s.free.length s).1.size
        · have hw : Pool.wait_closed s =
              WaitClosedOutcome.blocked (drainFree s.free.length s).1 := by
            unfold Pool.wait_closed
            simp [hcd, hcg, hr, hlt]
          rw [hw]
          simp only [WaitClosedOutcome.state]
          refine ⟨by omega, by omega, ?_⟩
          simp only [Pool.size, Pool.freesize] at h3 ⊢
          omega
        · have hw : Pool.wait_closed s = WaitClosedOutcome.returned
              { (drainFree s.free.length s).1 with closed := true } := by
            unfold Pool.wait_closed
            simp [hcd, hcg, hr, hlt]
          rw [hw]
          simp only [WaitClosedOutcome.state]
          refine ⟨?_, ?_, ?_⟩
          · show (drainFree s.free.length s).1.minsize ≤ (drainFree s.free.length s).1.maxsize
            omega
          · show (drainFree s.free.length s).1.acquiring = 0
            omega
          · show (drainFree s.free.length s).1.free.length +
                (drainFree s.free.length s).1.used.card +
                (drainFree s.free.length s).1.acquiring ≤ (drainFree s.free.length s).1.maxsize
            simp only [Pool.size, Pool.freesize] at h3
            omega

/-- Closing an open connection whose driver close succeeds clears the
handle. -/
theorem close_open_clean {c : Connection} (h1 : c.hasHandle = true) (h2 : c.closeErr = none) :
    Connection.close c = ⟨{ c with hasHandle := false }, none, true⟩ := by
  unfold Connection.close
  simp [h1, h2]

/-- The sweep's close image of a connection whose driver close succeeds
reports itself closed. -/
theorem closeFx_closed {c : Connection} (h : c.closeErr = none) :
    Connection.closed (closeFx c) = true := by
  unfold closeFx
  by_cases hc : Connection.closed c = true
  · simp [hc]
  · have hh : c.hasHandle = true := by
      unfold Connection.closed at hc
      cases hhh : c.hasHandle
      · rw [hhh] at hc
        simp at hc
      · rfl
    simp only [hc, Bool.false_eq_true, if_false]
    rw [close_open_clean hh h]
    simp [Connection.closed]

/-- A connection-terminating classification implies the exception is a
pyodbc error. -/
theorem conn_close_error_isPyodbc {e : PyException} (h : is_conn_close_error e = true) :
    e.isPyodbcError = true := by
  by_cases hp : e.isPyodbcError = true
  · exact hp
  · exfalso
    unfold is_conn_close_error at h
    have hp2 : e.isPyodbcError = false := by
      cases hx : e.isPyodbcError
      · rfl
      · exact absurd hx hp
    rw [hp2] at h
    simp at h

theorem acquireStep_closed_eq (now : Int) (s : Pool) :
    (Pool.acquireStep now s).state.closed = s.closed := by
  unfold Pool.acquireStep
  by_cases hcl : s.closing = true
  · simp [hcl, AcquireOutcome.state]
  · simp only [hcl, Bool.false_eq_true, if_false]
    have hcd := (fill_free_pool_fields now s true).2.2.2.2.2.2
    set fr := Pool.fill_free_pool now s true with hfr
    cases h2 : fr.2 with
    | some e => simpa [AcquireOutcome.state] using hcd
    | none =>
      cases hfree : fr.1.free with
      | nil => simpa [AcquireOutcome.state] using hcd
      | cons conn rest =>
        by_cases hc1 : Connection.closed conn = true
        · simp only [hc1, if_true, AcquireOutcome.state]
          exact hcd
        · simp only [hc1, Bool.false_eq_true, if_false]
          by_cases hc2 : conn ∈ fr.1.used
          · simp only [hc2, if_true, AcquireOutcome.state]
            exact hcd
          · simp only [hc2, if_false, AcquireOutcome.state]
            exact hcd

theorem release_closed_eq (s : Pool) (c : Connection) :
    (Pool.release s c).1.closed = s.closed := by
  unfold Pool.release
  by_cases hm : c ∈ s.used
  · simp only [hm, if_true]
    by_cases hc1 : Connection.closed c = true
    · simp [hc1]
    · simp only [hc1, Bool.false_eq_true, if_false]
      by_cases hc2 : s.closing = true
      · simp only [hc2, if_true]
        cases hr : (Connection.close c).raised with
        | some e => simp
        | none => simp
      · simp [hc2]
  · simp [hm]

theorem wait_closed_of_closed (s : Pool) (h : s.closed = true) :
    Pool.wait_closed s = WaitClosedOutcome.returned s := by
  unfold Pool.wait_closed
  simp [h]

/-! ## Claim theorems -/

/-- C10: the connection-terminating classifier returns true if and only
if the exception is a pyodbc driver error with at least two arguments
whose first argument is the SQLSTATE "08S01" (any message), or is
"HY000" with a second argument starting with the fixed server-closed
prefix; in particular an HY000 error with any other message, or any
exception with fewer than two arguments, is not classified as
connection-terminating. -/
theorem C10_conn_close_classifier (e : PyException) :
    is_conn_close_error e = true ↔
      (e.cls ≠ PyExcClass.nonPyodbc ∧ 2 ≤ e.args.length ∧
        (e.args.head? = some ("08S01") ∨
          (e.args.head? = some ("HY000") ∧
            ∃ m, e.args.get? 1 = some m ∧
              m.startsWith ("[HY000] server closed the connection unexpectedly") = true))) := by
  obtain ⟨cls, args⟩ := e
  by_cases hp : cls = PyExcClass.nonPyodbc
  · subst hp
    unfold is_conn_close_error PyException.isPyodbcError
    simp
  · match args with
    | [] =>
      unfold is_conn_close_error
      simp
    | [a] =>
      unfold is_conn_close_error PyException.isPyodbcError
      simp [hp]
    | a :: b :: t =>
      unfold is_conn_close_error PyException.isPyodbcError
      have hlen : ¬((a :: b :: t).length < 2) := by simp
      by_cases ha1 : a = "08S01"
      · subst ha1
        simp [CONN_CLOSE_ERRORS, List.lookup, hp, hlen]
      · by_cases ha2 : a = "HY000"
        · subst ha2
          have hlook : CONN_CLOSE_ERRORS.lookup ("HY000") =
              some (some ("[HY000] server closed the connection unexpectedly")) := by rfl
          simp only [hlook, CONN_CLOSE_ERRORS] at *
          simp [hp, hlen, List.lookup]
        · have hb1 : (a == "08S01") = false := beq_eq_false_iff_ne.mpr ha1
          have hb2 : (a == "HY000") = false := beq_eq_false_iff_ne.mpr ha2
          have hlook : CONN_CLOSE_ERRORS.lookup a = none := by
            unfold CONN_CLOSE_ERRORS
            simp [List.lookup, hb1, hb2]
          simp [hp, hlen, hlook, ha1, ha2]

/-- C9: `close()` is idempotent: closing an already-closed Connection is
a no-op that raises nothing and performs no driver call, and closing an
already-closed Pool is a no-op; a successful `Connection.close()` clears
the handle, so the connection reports closed afterwards and a second
close performs no driver call; `Pool.close` is idempotent in general. -/
theorem C9_close_idempotent :
    (∀ c : Connection, Connection.closed c = true →
        Connection.close c = ⟨c, none, false⟩) ∧
    (∀ c : Connection, c.hasHandle = true → c.closeErr = none →
        Connection.closed ((Connection.close c).conn) = true ∧
        Connection.close ((Connection.close c).conn) =
          ⟨(Connection.close c).conn, none, false⟩) ∧
    (∀ s : Pool, s.closed = true → Pool.close s = s) ∧
    (∀ s : Pool, Pool.close (Pool.close s) = Pool.close s) := by
  refine ⟨?_, ?_, ?_, ?_⟩
  · intro c h
    have hh : c.hasHandle = false := by
      unfold Connection.closed at h
      cases hx : c.hasHandle
      · rfl
      · rw [hx] at h
        simp at h
    unfold Connection.close
    simp [hh]
  · intro c h1 h2
    rw [close_open_clean h1 h2]
    refine ⟨by simp [Connection.closed], ?_⟩
    unfold Connection.close
    simp
  · intro s h
    unfold Pool.close
    simp [h]
  · intro s
    unfold Pool.close
    by_cases h : s.closed = true
    · simp [h]
    · simp [h]

/-- Witness for C9 at concrete inputs. -/
theorem C9_close_idempotent_w :
    Connection.close ⟨3, false, 0, none⟩ = ⟨⟨3, false, 0, none⟩, none, false⟩ ∧
    Connection.closed ((Connection.close ⟨4, true, 0, none⟩).conn) = true ∧
    Pool.close ⟨0, 1, -1, [], ∅, 0, true, true, 0⟩ = ⟨0, 1, -1, [], ∅, 0, true, true, 0⟩ :=
  ⟨C9_close_idempotent.1 ⟨3, false, 0, none⟩ rfl,
   (C9_close_idempotent.2.1 ⟨4, true, 0, none⟩ rfl rfl).1,
   C9_close_idempotent.2.2.1 ⟨0, 1, -1, [], ∅, 0, true, true, 0⟩ rfl⟩

/-- C6: on a pool in closing state, `acquire()` fails immediately with
the pool-closing `RuntimeError` and the returned state is the input
state unchanged, so no connection is created, no pool state is mutated
and no waiting happens; in particular this holds for any non-closed pool
right after `close()` was called. -/
theorem C6_acquire_on_closing :
    (∀ (now : Int) (s : Pool), s.closing = true →
        Pool.acquireStep now s = AcquireOutcome.failed
          (PyErr.runtimeError ("Cannot acquire connection after closing pool")) s) ∧
    (∀ (now : Int) (s : Pool), s.closed = false →
        Pool.acquireStep now (Pool.close s) = AcquireOutcome.failed
          (PyErr.runtimeError ("Cannot acquire connection after closing pool"))
          (Pool.close s)) := by
  constructor
  · intro now s h
    unfold Pool.acquireStep
    simp [h]
  · intro now s h
    have hcl : (Pool.close s).closing = true := by
      unfold Pool.close
      simp [h]
    unfold Pool.acquireStep
    simp [hcl]

/-- Witness for C6 at a concrete closing pool. -/
theorem C6_acquire_on_closing_w :
    Pool.acquireStep 0 ⟨0, 1, -1, [], ∅, 0, true, false, 0⟩ = AcquireOutcome.failed
      (PyErr.runtimeError ("Cannot acquire connection after closing pool"))
      ⟨0, 1, -1, [], ∅, 0, true, false, 0⟩ :=
  C6_acquire_on_closing.1 0 ⟨0, 1, -1, [], ∅, 0, true, false, 0⟩ rfl

/-- C8 counterexample: a closed cursor's operation does fail before any
driver call, but the `OperationalError` carries the message
"Cursor is closed." — not the message "cursor is closed" the claim
states. -/
theorem C8_closed_cursor_counterexample :
    (Cursor.execute ⟨none⟩ (Except.ok ())).result =
      Except.error (PyErr.driver ⟨PyExcClass.operationalError, ["Cursor is closed."]⟩) ∧
    (Cursor.execute ⟨none⟩ (Except.ok ())).driverCalled = false ∧
    ¬ ((Cursor.execute ⟨none⟩ (Except.ok ())).result =
      Except.error (PyErr.driver ⟨PyExcClass.operationalError, ["cursor is closed"]⟩)) := by
  refine ⟨rfl, rfl, ?_⟩
  intro h
  have h2 : (["Cursor is closed."] : List String) = ["cursor is closed"] := by
    have h1 : (Except.error (PyErr.driver ⟨PyExcClass.operationalError, ["Cursor is closed."]⟩)
        : Except PyErr Unit) =
        Except.error (PyErr.driver ⟨PyExcClass.operationalError, ["cursor is closed"]⟩) := h
    injection h1 with h1a
    injection h1a with h1b
    injection h1b
  simp at h2

/-- C8 amended: on a cursor whose owning-connection reference is null,
every driver-touching operation (execute, executemany, fetchone,
fetchall, fetchmany, nextset, the metadata operations, skip, commit,
rollback — all of which forward through `_run_operation`) fails with
`OperationalError` (the spec's InvalidStateError kind) carrying the
message "Cursor is closed." without calling into the driver; on an open
cursor the null check passes and the operation is forwarded to the
driver. -/
theorem C8_closed_cursor_amended :
    (∀ r, Cursor.run_operation ⟨none⟩ r =
        ⟨⟨none⟩,
         Except.error (PyErr.driver ⟨PyExcClass.operationalError, ["Cursor is closed."]⟩),
         false⟩) ∧
    (∀ cur r, Cursor.execute cur r = Cursor.run_operation cur r) ∧
    (∀ cur r, Cursor.executemany cur r = Cursor.run_operation cur r) ∧
    (∀ cur r, Cursor.fetchone cur r = Cursor.run_operation cur r) ∧
    (∀ cur r, Cursor.fetchall cur r = Cursor.run_operation cur r) ∧
    (∀ cur r, Cursor.fetchmany cur r = Cursor.run_operation cur r) ∧
    (∀ cur r, Cursor.nextset cur r = Cursor.run_operation cur r) ∧
    (∀ cur r, Cursor.tables cur r = Cursor.run_operation cur r) ∧
    (∀ cur r, Cursor.columns cur r = Cursor.run_operation cur r) ∧
    (∀ cur r, Cursor.statistics cur r = Cursor.run_operation cur r) ∧
    (∀ cur r, Cursor.primaryKeys cur r = Cursor.run_operation cur r) ∧
    (∀ cur r, Cursor.foreignKeys cur r = Cursor.run_operation cur r) ∧
    (∀ cur r, Cursor.getTypeInfo cur r = Cursor.run_operation cur r) ∧
    (∀ cur r, Cursor.procedures cur r = Cursor.run_operation cur r) ∧
    (∀ cur r, Cursor.skip cur r = Cursor.run_operation cur r) ∧
    (∀ cur r, Cursor.commit cur r = Cursor.run_operation cur r) ∧
    (∀ cur r, Cursor.rollback cur r = Cursor.run_operation cur r) ∧
    (∀ c r, (Cursor.run_operation ⟨some c⟩ r).driverCalled = true) := by
  refine ⟨fun r => rfl, fun _ _ => rfl, fun _ _ => rfl, fun _ _ => rfl, fun _ _ => rfl,
    fun _ _ => rfl, fun _ _ => rfl, fun _ _ => rfl, fun _ _ => rfl, fun _ _ => rfl,
    fun _ _ => rfl, fun _ _ => rfl, fun _ _ => rfl, fun _ _ => rfl, fun _ _ => rfl,
    fun _ _ => rfl, fun _ _ => rfl, ?_⟩
  intro c r
  cases r with
  | ok _ => rfl
  | error e =>
    show (Cursor.run_operation ⟨some c⟩ (Except.error e)).driverCalled = true
    unfold Cursor.run_operation
    by_cases h1 : e.isPyodbcError = true
    · simp only [h1, if_true]
      by_cases h2 : is_conn_close_error e = true
      · simp only [h2, if_true]
        cases hr : (Connection.close c).raised with
        | some e2 => simp [hr]
        | none => simp [hr]
      · simp [h2]
    · simp [h1]

/-- C7 counterexample: a non-`ProgrammingError` failure while closing a
stale idle connection during the recycle sweep is NOT swallowed — it
propagates to the acquire caller, and the connection is not evicted from
the free collection. -/
theorem C7_sweep_failure_counterexample :
    Pool.acquireStep 100
        ⟨0, 1, 10,
         [⟨7, true, 0, some ⟨PyExcClass.operationalError, ["IM001", "close failed"]⟩⟩],
         ∅, 0, false, false, 0⟩ =
      AcquireOutcome.failed
        (PyErr.driver ⟨PyExcClass.operationalError, ["IM001", "close failed"]⟩)
        ⟨0, 1, 10,
         [⟨7, true, 0, some ⟨PyExcClass.operationalError, ["IM001", "close failed"]⟩⟩],
         ∅, 0, false, false, 0⟩ ∧
    (⟨7, true, 0, some ⟨PyExcClass.operationalError, ["IM001", "close failed"]⟩⟩ : Connection) ∈
      (Pool.acquireStep 100
        ⟨0, 1, 10,
         [⟨7, true, 0, some ⟨PyExcClass.operationalError, ["IM001", "close failed"]⟩⟩],
         ∅, 0, false, false, 0⟩).state.free := by
  constructor
  · decide
  · decide

/-- C7 amended: a `ProgrammingError`-class failure (the only class the
sweep's `except` clause catches) while closing an idle connection during
the recycle sweep is swallowed — the sweep propagates nothing — and the
stale connection is evicted from the free collection regardless; other
failure classes propagate instead (see the counterexample). -/
theorem C7_sweep_failure_amended :
    (∀ (now rec : Int) (free : List Connection), sweepSafe now rec free →
        (recycleSweep now rec free.length free).2.2 = none) ∧
    (∀ (now rec : Int) (free : List Connection) (c : Connection), sweepSafe now rec free →
        c ∈ free → isStale now rec c = true →
        c ∉ (recycleSweep now rec free.length free).1) := by
  constructor
  · intro now rec free h
    have heq := recycleSweep_eq now rec free [] h
    rw [List.nil_append] at heq
    rw [heq]
  · intro now rec free c h hc hs
    have heq := recycleSweep_eq now rec free [] h
    rw [List.nil_append, List.append_nil] at heq
    have h1 : (recycleSweep now rec free.length free).1 =
        free.filter (fun x => !isStale now rec x) := by rw [heq]
    rw [h1]
    intro hmem
    have h2 := (List.mem_filter.mp hmem).2
    rw [hs] at h2
    simp at h2

/-- Witness for C7 amended: a stale connection whose close raises
`ProgrammingError` is still evicted and nothing propagates. -/
theorem C7_sweep_failure_amended_w :
    (recycleSweep 100 10 1
      [⟨7, true, 0, some ⟨PyExcClass.programmingError, ["boom"]⟩⟩]).2.2 = none ∧
    (⟨7, true, 0, some ⟨PyExcClass.programmingError, ["boom"]⟩⟩ : Connection) ∉
      (recycleSweep 100 10 1
        [⟨7, true, 0, some ⟨PyExcClass.programmingError, ["boom"]⟩⟩]).1 :=
  ⟨C7_sweep_failure_amended.1 100 10
      [⟨7, true, 0, some ⟨PyExcClass.programmingError, ["boom"]⟩⟩] (by decide),
   C7_sweep_failure_amended.2 100 10
      [⟨7, true, 0, some ⟨PyExcClass.programmingError, ["boom"]⟩⟩]
      ⟨7, true, 0, some ⟨PyExcClass.programmingError, ["boom"]⟩⟩
      (by decide) (by decide) (by decide)⟩

/-- C2: `Pool.release(conn)` requires conn to be in the used set — a
release of a connection not in it fails loudly with an assertion error
and changes nothing; otherwise conn is removed from the used set, and:
an already-closed conn is dropped (not appended to free); an open conn
under a closing pool is closed immediately instead of pooled; an open
conn under a non-closing pool is appended to the free collection. -/
theorem C2_release_contract :
    (∀ (s : Pool) (conn : Connection), conn ∉ s.used →
        Pool.release s conn = (s, some PyErr.assertionError)) ∧
    (∀ (s : Pool) (conn : Connection), conn ∈ s.used →
        (Pool.release s conn).1.used = s.used.erase conn ∧
        conn ∉ (Pool.release s conn).1.used) ∧
    (∀ (s : Pool) (conn : Connection), conn ∈ s.used → Connection.closed conn = true →
        Pool.release s conn = ({ s with used := s.used.erase conn }, none)) ∧
    (∀ (s : Pool) (conn : Connection), conn ∈ s.used → Connection.closed conn = false →
        s.closing = true → conn.closeErr = none →
        Pool.release s conn = ({ s with used := s.used.erase conn }, none) ∧
        Connection.closed ((Connection.close conn).conn) = true) ∧
    (∀ (s : Pool) (conn : Connection), s.wf → conn ∈ s.used → Connection.closed conn = false →
        s.closing = false →
        Pool.release s conn =
          ({ s with used := s.used.erase conn, free := s.free ++ [conn] }, none)) := by
  refine ⟨?_, ?_, ?_, ?_, ?_⟩
  · intro s conn h
    unfold Pool.release
    simp [h]
  · intro s conn h
    have hused : (Pool.release s conn).1.used = s.used.erase conn := by
      unfold Pool.release
      simp only [h, if_true]
      by_cases hc1 : Connection.closed conn = true
      · simp [hc1]
      · simp only [hc1, Bool.false_eq_true, if_false]
        by_cases hc2 : s.closing = true
        · simp only [hc2, if_true]
          cases hr : (Connection.close conn).raised with
          | some e => simp
          | none => simp
        · simp [hc2]
    exact ⟨hused, by rw [hused]; exact Finset.not_mem_erase conn s.used⟩
  · intro s conn h hc
    unfold Pool.release
    simp [h, hc]
  · intro s conn h hc hcl herr
    have hh : conn.hasHandle = true := by
      unfold Connection.closed at hc
      cases hx : conn.hasHandle
      · rw [hx] at hc
        simp at hc
      · rfl
    constructor
    · unfold Pool.release
      simp only [h, if_true, hc, Bool.false_eq_true, if_false, hcl]
      rw [close_open_clean hh herr]
    · rw [close_open_clean hh herr]
      simp [Connection.closed]
  · intro s conn hwf h hc hcl
    obtain ⟨h1, h2, h3⟩ := hwf
    have hcard : 1 ≤ s.used.card := Finset.card_pos.mpr ⟨conn, h⟩
    have hlt : s.free.length < s.maxsize := by
      simp only [Pool.size, Pool.freesize] at h3
      omega
    unfold Pool.release
    simp only [h, if_true, hc, Bool.false_eq_true, if_false, hcl]
    rw [dequeAppend_of_lt conn hlt]

/-- Witness for C2 at concrete inputs: a missing conn fails the assert;
a closed conn is dropped; an open conn on a closing pool is closed; an
open conn on a live pool is appended to free. -/
theorem C2_release_contract_w :
    Pool.release ⟨0, 2, -1, [], ∅, 0, false, false, 0⟩ ⟨1, true, 0, none⟩ =
      (⟨0, 2, -1, [], ∅, 0, false, false, 0⟩, some PyErr.assertionError) ∧
    Pool.release ⟨0, 2, -1, [], {⟨2, false, 0, none⟩}, 0, false, false, 0⟩ ⟨2, false, 0, none⟩ =
      (⟨0, 2, -1, [], Finset.erase {⟨2, false, 0, none⟩} ⟨2, false, 0, none⟩, 0,
        false, false, 0⟩, none) ∧
    Pool.release ⟨0, 2, -1, [], {⟨3, true, 0, none⟩}, 0, true, false, 0⟩ ⟨3, true, 0, none⟩ =
      (⟨0, 2, -1, [], Finset.erase {⟨3, true, 0, none⟩} ⟨3, true, 0, none⟩, 0,
        true, false, 0⟩, none) ∧
    Pool.release ⟨0, 2, -1, [], {⟨4, true, 0, none⟩}, 0, false, false, 0⟩ ⟨4, true, 0, none⟩ =
      (⟨0, 2, -1, [⟨4, true, 0, none⟩],
        Finset.erase {⟨4, true, 0, none⟩} ⟨4, true, 0, none⟩, 0, false, false, 0⟩, none) :=
  ⟨C2_release_contract.1 ⟨0, 2, -1, [], ∅, 0, false, false, 0⟩ ⟨1, true, 0, none⟩ (by decide),
   C2_release_contract.2.2.1 ⟨0, 2, -1, [], {⟨2, false, 0, none⟩}, 0, false, false, 0⟩
     ⟨2, false, 0, none⟩ (by decide) rfl,
   (C2_release_contract.2.2.2.1 ⟨0, 2, -1, [], {⟨3, true, 0, none⟩}, 0, true, false, 0⟩
     ⟨3, true, 0, none⟩ (by decide) rfl rfl rfl).1,
   C2_release_contract.2.2.2.2 ⟨0, 2, -1, [], {⟨4, true, 0, none⟩}, 0, false, false, 0⟩
     ⟨4, true, 0, none⟩ (by decide) (by decide) rfl rfl⟩

/-- C4: when a driver error raised during `Connection.execute` or during
a cursor operation is classified connection-terminating, the connection
is closed before the error is re-raised — its handle is cleared, so it
reports closed — and, being closed, `Pool.release` drops it instead of
returning it to the free collection; a driver error not so classified is
re-raised with the connection left untouched (still open). -/
theorem C4_conn_terminating_close :
    (∀ (c : Connection) (e : PyException), c.hasHandle = true → c.closeErr = none →
        is_conn_close_error e = true →
        Connection.execute c (Except.error e) =
          ({ c with hasHandle := false }, Except.error (PyErr.driver e))) ∧
    (∀ (c : Connection) (e : PyException), c.hasHandle = true →
        is_conn_close_error e = false →
        Connection.execute c (Except.error e) = (c, Except.error (PyErr.driver e))) ∧
    (∀ (c : Connection) (e : PyException), c.hasHandle = true → c.closeErr = none →
        is_conn_close_error e = true →
        Cursor.run_operation ⟨some c⟩ (Except.error e) =
          ⟨⟨some { c with hasHandle := false }⟩, Except.error (PyErr.driver e), true⟩) ∧
    (∀ (c : Connection) (e : PyException), is_conn_close_error e = false →
        Cursor.run_operation ⟨some c⟩ (Except.error e) =
          ⟨⟨some c⟩, Except.error (PyErr.driver e), true⟩) ∧
    (∀ (s : Pool) (c : Connection), Connection.closed c = true → c ∈ s.used →
        (Pool.release s c).1.free = s.free) := by
  refine ⟨?_, ?_, ?_, ?_, ?_⟩
  · intro c e h1 h2 hcls
    have hp := conn_close_error_isPyodbc hcls
    unfold Connection.execute
    simp only [h1, Bool.true_eq_false, if_false, hp, if_true, hcls]
    rw [close_open_clean h1 h2]
  · intro c e h1 hcls
    unfold Connection.execute
    simp only [h1, Bool.true_eq_false, if_false]
    by_cases hp : e.isPyodbcError = true
    · simp [hp, hcls]
    · simp [hp]
  · intro c e h1 h2 hcls
    have hp := conn_close_error_isPyodbc hcls
    unfold Cursor.run_operation
    simp only [hp, if_true, hcls]
    rw [close_open_clean h1 h2]
  · intro c e hcls
    unfold Cursor.run_operation
    by_cases hp : e.isPyodbcError = true
    · simp [hp, hcls]
    · simp [hp]
  · intro s c hc hm
    unfold Pool.release
    simp [hm, hc]

set_option maxRecDepth 10000 in
/-- Witness for C4 at concrete inputs: a communication-link-failure
error (SQLSTATE 08S01) closes the connection before re-raising, and an
ordinary HY000 error leaves it open. -/
theorem C4_conn_terminating_close_w :
    Connection.execute ⟨1, true, 5, none⟩
        (Except.error ⟨PyExcClass.operationalError, ["08S01", "link down"]⟩) =
      (⟨1, false, 5, none⟩,
       Except.error (PyErr.driver ⟨PyExcClass.operationalError, ["08S01", "link down"]⟩)) ∧
    Connection.execute ⟨1, true, 5, none⟩
        (Except.error ⟨PyExcClass.operationalError, ["HY000", "syntax error"]⟩) =
      (⟨1, true, 5, none⟩,
       Except.error (PyErr.driver ⟨PyExcClass.operationalError, ["HY000", "syntax error"]⟩)) ∧
    Cursor.run_operation ⟨some ⟨1, true, 5, none⟩⟩
        (Except.error ⟨PyExcClass.operationalError, ["08S01", "link down"]⟩) =
      ⟨⟨some ⟨1, false, 5, none⟩⟩,
       Except.error (PyErr.driver ⟨PyExcClass.operationalError, ["08S01", "link down"]⟩),
       true⟩ :=
  ⟨C4_conn_terminating_close.1 ⟨1, true, 5, none⟩
     ⟨PyExcClass.operationalError, ["08S01", "link down"]⟩ rfl rfl (by decide),
   C4_conn_terminating_close.2.1 ⟨1, true, 5, none⟩
     ⟨PyExcClass.operationalError, ["HY000", "syntax error"]⟩ rfl (by decide),
   C4_conn_terminating_close.2.2.1 ⟨1, true, 5, none⟩
     ⟨PyExcClass.operationalError, ["08S01", "link down"]⟩ rfl rfl (by decide)⟩

/-- C3 counterexample: against a pool with `minsize=0, maxsize=3`,
`pool_recycle=10` and three free connections of which the middle one has
been idle 1000 seconds, `acquire()` at time 1000 evicts the stale
connection but creates NO fresh connection in its place (`nextId` is
unchanged) and pool size drops from 3 to 2 — the sweep's eviction is
replaced only when the free collection would otherwise be empty or size
falls below `minsize`, so "a fresh Connection is created in its place
and pool size is unaffected by the swap" fails on this input. -/
theorem C3_recycle_counterexample :
    Pool.acquireStep 1000
        ⟨0, 3, 10, [⟨1, true, 1000, none⟩, ⟨2, true, 0, none⟩, ⟨3, true, 1000, none⟩],
         ∅, 0, false, false, 100⟩ =
      AcquireOutcome.ok ⟨1, true, 1000, none⟩
        ⟨0, 3, 10, [⟨3, true, 1000, none⟩], {⟨1, true, 1000, none⟩}, 0, false, false, 100⟩ ∧
    (⟨0, 3, 10, [⟨1, true, 1000, none⟩, ⟨2, true, 0, none⟩, ⟨3, true, 1000, none⟩],
      ∅, 0, false, false, 100⟩ : Pool).size = 3 ∧
    (⟨0, 3, 10, [⟨3, true, 1000, none⟩], {⟨1, true, 1000, none⟩}, 0, false, false, 100⟩
      : Pool).size = 2 ∧
    (⟨0, 3, 10, [⟨3, true, 1000, none⟩], {⟨1, true, 1000, none⟩}, 0, false, false, 100⟩
      : Pool).nextId =
    (⟨0, 3, 10, [⟨1, true, 1000, none⟩, ⟨2, true, 0, none⟩, ⟨3, true, 1000, none⟩],
      ∅, 0, false, false, 100⟩ : Pool).nextId := by
  refine ⟨by decide, by decide, by decide, rfl⟩

/-- C3 amended: a connection whose idle time exceeds a non-negative
`pool_recycle` at the moment of `acquire()` is closed and evicted by the
recycle sweep (the sweep keeps exactly the non-stale free connections)
and is never the connection `acquire()` returns; a fresh connection is
created only by the `minsize` refill or by the single opportunistic
creation when the sweep leaves the free collection empty and
`size < maxsize`, so pool size can decrease by an eviction when other
free connections remain.  With `pool_recycle = -1` the sweep leaves the
free collection unchanged. -/
theorem C3_recycle_amended :
    (∀ (now : Int) (s : Pool), sweepSafe now s.recycle s.free →
        (recycleSweep now s.recycle s.free.length s.free).1 =
          s.free.filter (fun c => !isStale now s.recycle c)) ∧
    (∀ (now : Int) (s : Pool) (c : Connection), sweepSafe now s.recycle s.free →
        c ∈ s.free → isStale now s.recycle c = true → c.closeErr = none →
        closeFx c ∈ (recycleSweep now s.recycle s.free.length s.free).2.1 ∧
        Connection.closed (closeFx c) = true) ∧
    (∀ (now : Int) (s : Pool) (c conn : Connection) (s2 : Pool),
        sweepSafe now s.recycle s.free → 0 ≤ s.recycle →
        c ∈ s.free → isStale now s.recycle c = true →
        Pool.acquireStep now s = AcquireOutcome.ok conn s2 → conn ≠ c) ∧
    (∀ (now : Int) (s : Pool), s.recycle = -1 →
        (recycleSweep now s.recycle s.free.length s.free).1 = s.free) := by
  refine ⟨?_, ?_, ?_, ?_⟩
  · intro now s hsafe
    have heq := recycleSweep_eq now s.recycle s.free [] hsafe
    rw [List.nil_append, List.append_nil] at heq
    rw [heq]
  · intro now s c hsafe hc hs herr
    have heq := recycleSweep_eq now s.recycle s.free [] hsafe
    rw [List.nil_append, List.append_nil] at heq
    have h1 : (recycleSweep now s.recycle s.free.length s.free).2.1 =
        (s.free.filter (fun x => isStale now s.recycle x)).reverse.map closeFx := by
      rw [heq]
    rw [h1]
    refine ⟨?_, closeFx_closed herr⟩
    exact List.mem_map_of_mem closeFx
      (List.mem_reverse.mpr (List.mem_filter.mpr ⟨hc, hs⟩))
  · intro now s c conn s2 hsafe hrec hc hs hacq
    unfold Pool.acquireStep at hacq
    by_cases hcl : s.closing = true
    · rw [if_pos hcl] at hacq
      exact absurd hacq (by simp)
    · rw [if_neg hcl] at hacq
      obtain ⟨hfe, hfm⟩ := fill_free_pool_free_mem now s true hsafe
      set fr := Pool.fill_free_pool now s true with hfr
      simp only [hfe] at hacq
      cases hfree : fr.1.free with
      | nil =>
        simp only [hfree] at hacq
        exact absurd hacq (by simp)
      | cons conn1 rest =>
        simp only [hfree] at hacq
        have hmem : conn1 ∈ fr.1.free := by
          rw [hfree]
          exact List.mem_cons_self conn1 rest
        have hnostale : isStale now s.recycle conn1 = false := by
          rcases hfm conn1 hmem with ⟨_, hstale⟩ | ⟨i, hfresh⟩
          · exact hstale
          · rw [hfresh]
            exact mkConn_not_stale now s.recycle hrec i
        by_cases hc1 : Connection.closed conn1 = true
        · rw [if_pos hc1] at hacq
          exact absurd hacq (by simp)
        · rw [if_neg hc1] at hacq
          by_cases hc2 : conn1 ∈ fr.1.used
          · rw [if_pos hc2] at hacq
            exact absurd hacq (by simp)
          · rw [if_neg hc2] at hacq
            have hconn : conn1 = conn := by
              injection hacq with ha _
            intro hbad
            rw [← hconn] at hbad
            rw [hbad] at hnostale
            rw [hs] at hnostale
            exact absurd hnostale (by simp)
  · intro now s hrec
    have hfalse : ∀ c : Connection, isStale now s.recycle c = false := by
      intro c
      unfold isStale
      rw [hrec]
      simp
    have hsafe : sweepSafe now s.recycle s.free := by
      intro c _ hstale _
      rw [hfalse c] at hstale
      exact absurd hstale (by simp)
    have heq := recycleSweep_eq now s.recycle s.free [] hsafe
    rw [List.nil_append, List.append_nil] at heq
    have h1 : (recycleSweep now s.recycle s.free.length s.free).1 =
        s.free.filter (fun c => !isStale now s.recycle c) := by rw [heq]
    rw [h1]
    apply List.filter_eq_self.mpr
    intro a _
    rw [hfalse a]
    simp

/-- Witness for C3 amended at concrete inputs: a stale connection is
filtered out of the sweep, closed and placed among the evicted; the
connection a successful acquire returns differs from the stale one; and
with threshold -1 the sweep is the identity on the free deque. -/
theorem C3_recycle_amended_w :
    (recycleSweep 1000 10 1 [⟨2, true, 0, none⟩]).1 =
      List.filter (fun c => !isStale 1000 10 c) [⟨2, true, 0, none⟩] ∧
    (closeFx ⟨2, true, 0, none⟩ ∈ (recycleSweep 1000 10 1 [⟨2, true, 0, none⟩]).2.1 ∧
     Connection.closed (closeFx ⟨2, true, 0, none⟩) = true) ∧
    (⟨50, true, 1000, none⟩ : Connection) ≠ (⟨2, true, 0, none⟩ : Connection) ∧
    (recycleSweep 1000 (-1) 1 [⟨2, true, 0, none⟩]).1 = [⟨2, true, 0, none⟩] :=
  ⟨C3_recycle_amended.1 1000 ⟨0, 1, 10, [⟨2, true, 0, none⟩], ∅, 0, false, false, 50⟩
     (by decide),
   C3_recycle_amended.2.1 1000 ⟨0, 1, 10, [⟨2, true, 0, none⟩], ∅, 0, false, false, 50⟩
     ⟨2, true, 0, none⟩ (by decide) (by decide) (by decide) rfl,
   C3_recycle_amended.2.2.1 1000 ⟨0, 1, 10, [⟨2, true, 0, none⟩], ∅, 0, false, false, 50⟩
     ⟨2, true, 0, none⟩ ⟨50, true, 1000, none⟩
     ⟨0, 1, 10, [], {⟨50, true, 1000, none⟩}, 0, false, false, 51⟩
     (by decide) (by decide) (by decide) (by decide) (by decide),
   C3_recycle_amended.2.2.2 1000 ⟨0, 1, -1, [⟨2, true, 0, none⟩], ∅, 0, false, false, 0⟩ rfl⟩

/-- `wait_closed` on a closing, not-yet-closed pool whose free
connections all close cleanly: it drains the free deque and then either
blocks on the condition or returns with the closed flag set, depending
on whether `size` still exceeds `freesize`. -/
theorem wait_closed_closing (s : Pool) (h1 : s.closed = false) (h2 : s.closing = true)
    (hfree : ∀ c ∈ s.free, c.closeErr = none) :
    Pool.wait_closed s =
      if ({ s with free := ([] : List Connection) } : Pool).freesize <
          ({ s with free := ([] : List Connection) } : Pool).size
      then WaitClosedOutcome.blocked { s with free := [] }
      else WaitClosedOutcome.returned
        { ({ s with free := ([] : List Connection) } : Pool) with closed := true } := by
  have hd := drainFree_clean s.free s rfl hfree
  unfold Pool.wait_closed
  rw [if_neg (by simp [h1]), if_neg (by simp [h2])]
  simp only [hd]

/-- C5: `wait_closed()` on a pool that is neither closed nor closing
raises the illegal-state `RuntimeError` with the state unchanged; after
`close()` was called it first closes every currently-free connection
(draining the free deque), returns only once `size == freesize` — with
the closed flag then set permanently — and blocks otherwise; on an
already-closed pool it returns without error; and no pool operation ever
resets the closed flag, so a closed pool cannot reopen. -/
theorem C5_wait_closed_contract :
    (∀ s : Pool, s.closed = false → s.closing = false →
        Pool.wait_closed s = WaitClosedOutcome.raised
          (PyErr.runtimeError (".wait_closed() should be called after .close()")) s) ∧
    (∀ s : Pool, s.closed = false → s.closing = true → (∀ c ∈ s.free, c.closeErr = none) →
        (drainFree s.free.length s = ({ s with free := [] }, s.free.map closeFx, none) ∧
         (∀ c ∈ s.free, Connection.closed (closeFx c) = true) ∧
         (s.used.card + s.acquiring ≠ 0 →
            Pool.wait_closed s = WaitClosedOutcome.blocked { s with free := [] }) ∧
         (s.used.card + s.acquiring = 0 →
            Pool.wait_closed s =
              WaitClosedOutcome.returned { s with free := [], closed := true } ∧
            ({ s with free := ([] : List Connection), closed := true } : Pool).closed = true))) ∧
    (∀ s : Pool, s.closed = true → Pool.wait_closed s = WaitClosedOutcome.returned s) ∧
    (∀ s : Pool, s.closed = true →
        (Pool.close s).closed = true ∧
        ((Pool.clear s).1).closed = true ∧
        (∀ (now : Int) (b : Bool), ((Pool.fill_free_pool now s b).1).closed = true) ∧
        (∀ now : Int, ((Pool.acquireStep now s).state).closed = true) ∧
        (∀ c : Connection, ((Pool.release s c).1).closed = true) ∧
        ((Pool.wait_closed s).state).closed = true) := by
  refine ⟨?_, ?_, ?_, ?_⟩
  · intro s h1 h2
    unfold Pool.wait_closed
    rw [if_neg (by simp [h1]), if_pos h2]
  · intro s h1 h2 hfree
    refine ⟨drainFree_clean s.free s rfl hfree,
      fun c hc => closeFx_closed (hfree c hc), ?_, ?_⟩
    · intro hne
      have hlt : ({ s with free := ([] : List Connection) } : Pool).freesize <
          ({ s with free := ([] : List Connection) } : Pool).size := by
        show ([] : List Connection).length <
          ([] : List Connection).length + s.used.card + s.acquiring
        simp only [List.length_nil]
        omega
      rw [wait_closed_closing s h1 h2 hfree, if_pos hlt]
    · intro hz
      have hnlt : ¬(({ s with free := ([] : List Connection) } : Pool).freesize <
          ({ s with free := ([] : List Connection) } : Pool).size) := by
        show ¬(([] : List Connection).length <
          ([] : List Connection).length + s.used.card + s.acquiring)
        simp only [List.length_nil]
        omega
      rw [wait_closed_closing s h1 h2 hfree, if_neg hnlt]
      exact ⟨rfl, rfl⟩
  · exact wait_closed_of_closed
  · intro s h
    refine ⟨?_, ?_, ?_, ?_, ?_, ?_⟩
    · unfold Pool.close
      simp [h]
    · unfold Pool.clear
      rw [(drainFree_fields s.free.length s).2.2.2.2.2.2.1]
      exact h
    · intro now b
      rw [(fill_free_pool_fields now s b).2.2.2.2.2.2]
      exact h
    · intro now
      rw [acquireStep_closed_eq now s]
      exact h
    · intro c
      rw [release_closed_eq s c]
      exact h
    · rw [wait_closed_of_closed s h]
      exact h

/-- Witness for C5 at concrete pools: a live pool raises, a closing pool
with no checked-out connections drains and returns closed, a closing
pool with one checked-out connection blocks, and an already-closed pool
is inert. -/
theorem C5_wait_closed_contract_w :
    Pool.wait_closed ⟨0, 1, -1, [], ∅, 0, false, false, 0⟩ =
      WaitClosedOutcome.raised
        (PyErr.runtimeError (".wait_closed() should be called after .close()"))
        ⟨0, 1, -1, [], ∅, 0, false, false, 0⟩ ∧
    Pool.wait_closed ⟨0, 2, -1, [⟨1, true, 0, none⟩], ∅, 0, true, false, 9⟩ =
      WaitClosedOutcome.returned ⟨0, 2, -1, [], ∅, 0, true, true, 9⟩ ∧
    Pool.wait_closed ⟨0, 2, -1, [⟨1, true, 0, none⟩], {⟨5, true, 0, none⟩}, 0, true, false, 9⟩ =
      WaitClosedOutcome.blocked ⟨0, 2, -1, [], {⟨5, true, 0, none⟩}, 0, true, false, 9⟩ ∧
    Pool.wait_closed ⟨0, 1, -1, [], ∅, 0, true, true, 3⟩ =
      WaitClosedOutcome.returned ⟨0, 1, -1, [], ∅, 0, true, true, 3⟩ ∧
    (Pool.close ⟨0, 1, -1, [], ∅, 0, true, true, 3⟩).closed = true :=
  ⟨C5_wait_closed_contract.1 ⟨0, 1, -1, [], ∅, 0, false, false, 0⟩ rfl rfl,
   ((C5_wait_closed_contract.2.1 ⟨0, 2, -1, [⟨1, true, 0, none⟩], ∅, 0, true, false, 9⟩
       rfl rfl (by decide)).2.2.2 (by decide)).1,
   (C5_wait_closed_contract.2.1
       ⟨0, 2, -1, [⟨1, true, 0, none⟩], {⟨5, true, 0, none⟩}, 0, true, false, 9⟩
       rfl rfl (by decide)).2.2.1 (by decide),
   C5_wait_closed_contract.2.2.1 ⟨0, 1, -1, [], ∅, 0, true, true, 3⟩ rfl,
   (C5_wait_closed_contract.2.2.2 ⟨0, 1, -1, [], ∅, 0, true, true, 3⟩ rfl).1⟩

/-- C1: `pool.size` always equals `pool.freesize + |pool.used| +
pool.acquiring` (it is computed exactly that way); a pool constructed
with `0 ≤ minsize ≤ maxsize` starts well-formed with `size ≤ maxsize`;
and every pool operation — the fill-free-pool step (with either
`override_min`), acquire, release, close, clear and wait_closed —
preserves well-formedness, so the total size never exceeds `maxsize` on
any reachable state. -/
theorem C1_pool_size_invariant :
    (∀ s : Pool, s.size = s.freesize + s.used.card + s.acquiring) ∧
    (∀ mi ma rec : Int, 0 ≤ mi → mi ≤ ma →
        ∃ s, Pool.init mi ma rec = Except.ok s ∧ s.wf) ∧
    (∀ s : Pool, s.wf → s.size ≤ s.maxsize) ∧
    (∀ (now : Int) (b : Bool) (s : Pool), s.wf → ((Pool.fill_free_pool now s b).1).wf) ∧
    (∀ (now : Int) (s : Pool), s.wf → ((Pool.acquireStep now s).state).wf) ∧
    (∀ (s : Pool) (conn : Connection), s.wf → ((Pool.release s conn).1).wf) ∧
    (∀ s : Pool, s.wf → (Pool.close s).wf) ∧
    (∀ s : Pool, s.wf → ((Pool.clear s).1).wf) ∧
    (∀ s : Pool, s.wf → ((Pool.wait_closed s).state).wf) := by
  refine ⟨fun s => rfl, ?_, fun s h => h.2.2,
    fun now b s h => fill_free_pool_wf now s b h,
    fun now s h => acquireStep_wf now s h,
    fun s conn h => release_wf s conn h,
    fun s h => close_wf s h,
    fun s h => clear_wf s h,
    fun s h => wait_closed_wf s h⟩
  intro mi ma rec h0 h1
  have hnot1 : ¬(mi < 0) := by omega
  have hnot2 : ¬(ma < mi) := by omega
  unfold Pool.init
  rw [if_neg hnot1, if_neg hnot2]
  refine ⟨_, rfl, ?_, rfl, ?_⟩
  · exact Int.toNat_le_toNat h1
  · exact Nat.zero_le _

/-- Witness for C1 at concrete inputs: construction with
`minsize=0, maxsize=2` succeeds well-formed, and each operation applied
to a concrete well-formed pool (one free and one used connection)
leaves a well-formed state. -/
theorem C1_pool_size_invariant_w :
    (∃ s, Pool.init 0 2 (-1) = Except.ok s ∧ s.wf) ∧
    Pool.wf ((Pool.fill_free_pool 0
      ⟨1, 2, -1, [⟨0, true, 0, none⟩], {⟨1, true, 0, none⟩}, 0, false, false, 5⟩ true).1) ∧
    Pool.wf ((Pool.acquireStep 0
      ⟨1, 2, -1, [⟨0, true, 0, none⟩], {⟨1, true, 0, none⟩}, 0, false, false, 5⟩).state) ∧
    Pool.wf ((Pool.release
      ⟨1, 2, -1, [⟨0, true, 0, none⟩], {⟨1, true, 0, none⟩}, 0, false, false, 5⟩
      ⟨1, true, 0, none⟩).1) ∧
    Pool.wf (Pool.close
      ⟨1, 2, -1, [⟨0, true, 0, none⟩], {⟨1, true, 0, none⟩}, 0, false, false, 5⟩) ∧
    Pool.wf ((Pool.clear
      ⟨1, 2, -1, [⟨0, true, 0, none⟩], {⟨1, true, 0, none⟩}, 0, false, false, 5⟩).1) ∧
    Pool.wf ((Pool.wait_closed
      ⟨1, 2, -1, [⟨0, true, 0, none⟩], {⟨1, true, 0, none⟩}, 0, false, false, 5⟩).state) :=
  ⟨C1_pool_size_invariant.2.1 0 2 (-1) (by decide) (by decide),
   C1_pool_size_invariant.2.2.2.1 0 true
     ⟨1, 2, -1, [⟨0, true, 0, none⟩], {⟨1, true, 0, none⟩}, 0, false, false, 5⟩ (by decide),
   C1_pool_size_invariant.2.2.2.2.1 0
     ⟨1, 2, -1, [⟨0, true, 0, none⟩], {⟨1, true, 0, none⟩}, 0, false, false, 5⟩ (by decide),
   C1_pool_size_invariant.2.2.2.2.2.1
     ⟨1, 2, -1, [⟨0, true, 0, none⟩], {⟨1, true, 0, none⟩}, 0, false, false, 5⟩
     ⟨1, true, 0, none⟩ (by decide),
   C1_pool_size_invariant.2.2.2.2.2.2.1
     ⟨1, 2, -1, [⟨0, true, 0, none⟩], {⟨1, true, 0, none⟩}, 0, false, false, 5⟩ (by decide),
   C1_pool_size_invariant.2.2.2.2.2.2.2.1
     ⟨1, 2, -1, [⟨0, true, 0, none⟩], {⟨1, true, 0, none⟩}, 0, false, false, 5⟩ (by decide),
   C1_pool_size_invariant.2.2.2.2.2.2.2.2
     ⟨1, 2, -1, [⟨0, true, 0, none⟩], {⟨1, true, 0, none⟩}, 0, false, false, 5⟩ (by decide)⟩

end Aioodbc
